import Mathlib

/-!
Verification development for the fornax-images build automation utility.

The repository contains three near-duplicate implementations of the same
command-construction logic:
  * `src/build.py`  — class `Builder` (dry-run capable, unit tested),
  * `src/buildimages.py` — classes `TaskRunner`/`Builder` plus the fixed
    build order and the orchestrator `main`,
  * `build.py` (repo root) — the legacy function `build_images`.
Each Python routine is embedded below as an executable Lean function over
`String`/`List String`, with `Except` for raised exceptions and an
`outputs : String → String` oracle standing for the stdout captured from
external commands.  Filesystem directories are embedded as the list of
file names they contain (glob calls become filters over that list).
-/

/-! ## Python string primitives -/

/-- Characters treated as whitespace by Python's `str.strip()`. -/
def pyWhitespaceChar (c : Char) : Bool :=
  c == ' ' || c == '\t' || c == '\n' || c == '\r' || c == '\x0b' || c == '\x0c'

/-- Python `str.strip()`: drop leading and trailing whitespace. -/
def pyStrip (s : String) : String :=
  String.mk (((s.data.dropWhile pyWhitespaceChar).reverse.dropWhile pyWhitespaceChar).reverse)

/-- Helper for substring search: does `needle` occur in `hay`, starting at any
position?  Models Python's `needle in hay`. -/
def containsFrom (needle : List Char) : List Char → Bool
  | [] => needle.isEmpty
  | c :: cs => needle.isPrefixOf (c :: cs) || containsFrom needle cs

/-- Python `needle in hay` for strings (substring containment). -/
def strContains (hay needle : String) : Bool :=
  containsFrom needle.data hay.data

/-- Python `s.startswith(p)`. -/
def pyStartsWith (s p : String) : Bool :=
  p.data.isPrefixOf s.data

/-- Python `s.endswith(p)`. -/
def pyEndsWith (s p : String) : Bool :=
  p.data.isSuffixOf s.data

/-- Python `s.count(c)` for a single-character needle `c`. -/
def countEq (s : String) (c : Char) : Nat :=
  s.data.count c

/-- Python `s.split(sep, 1)` for a single-character separator that is known to
occur: the part before the first `sep` and the part after it. -/
def splitFirst (sep : Char) (s : String) : String × String :=
  (String.mk (s.data.takeWhile (fun c => c != sep)),
   String.mk ((s.data.dropWhile (fun c => c != sep)).tail))

/-- Python `s.rsplit(':', 1)[1]` when `':' in s`: the suffix after the last
colon (returns `s` itself when there is no colon; callers guard on that). -/
def afterLastColon (s : String) : String :=
  String.mk ((s.data.reverse.takeWhile (fun c => c != ':')).reverse)

/-- Split a character list at every occurrence of `sep` (no limit). -/
def splitChars (sep : Char) : List Char → List (List Char)
  | [] => [[]]
  | c :: cs =>
    match splitChars sep cs with
    | [] => [[]]
    | h :: t => if c == sep then [] :: h :: t else (c :: h) :: t

/-- Python `s.split(sep)` for a single-character separator (e.g. `"\n"`,
`"="`, `" "`): unlimited split keeping empty pieces. -/
def pySplit (sep : Char) (s : String) : List String :=
  (splitChars sep s.data).map String.mk

/-- Python `s.upper()` (ASCII, as used on build-arg keys). -/
def pyUpper (s : String) : String :=
  String.mk (s.data.map Char.toUpper)

/-! ## Exceptions -/

/-- Python exceptions raised by the modelled code. -/
inductive PyError where
  /-- `raise ValueError(msg)` -/
  | valueError (msg : String)
  /-- `AttributeError`: dereferencing an attribute of `None` (dry-run result). -/
  | attributeError
  /-- `IndexError`: `tag.rsplit(':', 1)[1]` on a string without a colon. -/
  | indexError
  /-- `NameError`: use of a loop variable that was never bound. -/
  | nameError
deriving DecidableEq, Repr

/-! ## `src/build.py` — `Builder.build` -/

/-- Result of a successful `Builder.build`: the accumulated `cmd_args` list
(one `--build-arg … ` flag per entry, plus the optional `extra_args` string),
the tag substituted into `--tag`, and the full command line. -/
structure BuildOutput where
  cmdArgs : List String
  tagUsed : String
  buildCmd : String
deriving DecidableEq, Repr

/-- `if ':' in tag: tag = tag.rsplit(':', 1)[1]` (src/build.py lines 94-95). -/
def effectiveTag (tag : String) : String :=
  if strContains tag ":" then afterLastColon tag else tag

/-- `any([arg.startswith(f'{key}=') for arg in build_args])`. -/
def hasKey (key : String) (args : List String) : Bool :=
  args.any (fun a => pyStartsWith a (key ++ "="))

/-- The `for key,val in mapping.items(): if not any(...): build_args.append(...)`
loop shared by both `Builder.build` variants. -/
def injectDefaults (mapping : List (String × String)) (args : List String) : List String :=
  mapping.foldl (fun ba kv => if hasKey kv.1 ba then ba else ba ++ [kv.1 ++ "=" ++ kv.2]) args

/-- `mapping` of src/build.py `Builder.build` (lines 101-104). -/
def buildMapping (repo efft : String) : List (String × String) :=
  [("REPOSITORY", repo), ("IMAGE_TAG", efft)]

/-- `mapping` of src/buildimages.py `Builder.build` (lines 111-115). -/
def buildimagesMapping (repository efft : String) : List (String × String) :=
  [("REPOSITORY", repository), ("BASE_IMAGE_TAG", efft), ("IMAGE_TAG", efft)]

/-- `name, val = arg.split("=", 1); cmd_args.append(f"--build-arg {name}={val}")`. -/
def flagOf (arg : String) : String :=
  "--build-arg " ++ (splitFirst '=' arg).1 ++ "=" ++ (splitFirst '=' arg).2

/-- The validation/translation loop over `build_args` (src/build.py lines
110-117): raise `ValueError` unless each entry has exactly one `=`, else emit
one `--build-arg name=value` flag per entry, in order. -/
def toFlags : List String → Except PyError (List String)
  | [] => .ok []
  | arg :: rest =>
    if countEq arg '=' = 1 then
      match toFlags rest with
      | .error e => .error e
      | .ok flags => .ok (flagOf arg :: flags)
    else
      .error (.valueError ("build_args should be of the form 'name=value'. Got '" ++ arg ++ "'."))

/-- Python truthiness of the optional `extra_args`/`build_pars` string:
appended as a single list element only when non-`None` and non-empty. -/
def extraList : Option String → List String
  | none => []
  | some e => if e = "" then [] else [e]

/-- `Builder.build` of src/build.py (lines 69-126).  The `isinstance` check on
`build_args` is discharged by typing; everything else is modelled step by
step: effective-tag extraction, `strip` of each build-arg, default-arg
injection, validation, flag construction, and the final command string. -/
def build (repo image tag : String) (build_args : List String) (extra_args : Option String) :
    Except PyError BuildOutput :=
  let efft := effectiveTag tag
  let injected := injectDefaults (buildMapping repo efft) (build_args.map pyStrip)
  match toFlags injected with
  | .error e => .error e
  | .ok flags =>
    let cmdArgs := flags ++ extraList extra_args
    .ok ⟨cmdArgs, efft,
      "docker build " ++ String.intercalate " " cmdArgs ++ " --tag " ++ efft ++ " " ++ image⟩

/-- `Builder.push` of src/build.py (lines 128-141): requires a colon in the
tag, then runs `docker push <tag>` (timeout 1000). -/
def push (tag : String) : Except PyError String :=
  if strContains tag ":" then .ok ("docker push " ++ tag)
  else .error (.valueError ("tag: " ++ tag ++ " is not a str the form repo:tag"))

/-! ## `src/buildimages.py` — `Builder` -/

/-- Fixed build order (src/buildimages.py lines 10-14; "heasoft" commented out). -/
def order : List String := ["base_image", "tractor"]

/-- `Builder.build` of src/buildimages.py (lines 75-138).  Differences from the
src/build.py variant: `tag.rsplit(":", 1)[1]` is unguarded (IndexError on a
colon-free tag), a third default `BASE_IMAGE_TAG` is injected, and the final
`--tag` flag uses the original `tag`, not the suffix. -/
def buildimages_build (repository image_path tag : String) (build_args : List String)
    (build_pars : Option String) : Except PyError BuildOutput :=
  if strContains tag ":" then
    let default_tag := afterLastColon tag
    let injected := injectDefaults (buildimagesMapping repository default_tag) (build_args.map pyStrip)
    match toFlags injected with
    | .error e => .error e
    | .ok flags =>
      let extra := flags ++ extraList build_pars
      .ok ⟨extra, tag,
        "docker build " ++ String.intercalate " " extra ++ " --tag " ++ tag ++ " " ++ image_path⟩
  else .error .indexError

/-- `Builder.push` of src/buildimages.py (lines 140-152): no validation at all,
always runs `docker push <tag>`. -/
def buildimages_push (tag : String) : String :=
  "docker push " ++ tag

/-- The `for name in images: if not name in order: raise SystemExit(2)` loop of
`builds_necessary` (src/buildimages.py lines 207-210). -/
def checkKnown : List String → Except Nat Unit
  | [] => .ok ()
  | name :: rest => if order.contains name then checkKnown rest else .error 2

/-- `Builder.builds_necessary` (src/buildimages.py lines 204-222): validate the
requested names, then walk the fixed `order` collecting
`(name, f"ghcr.io/{repository}/{name}:{tag}")` for each requested name. -/
def builds_necessary (repository tag : String) (images : List String) :
    Except Nat (List (String × String)) :=
  match checkKnown images with
  | .error c => .error c
  | .ok _ =>
    .ok ((order.filter (fun name => images.contains name)).map
      (fun name => (name, "ghcr.io/" ++ repository ++ "/" ++ name ++ ":" ++ tag)))

/-! ## `build.py` (repo root) — `build_images` build-arg handling -/

/-- The `for arg in build_args: if '=' not in arg: raise ValueError(...)` loop
of `build_images` (build.py lines 54-56): only the presence of `=` is checked. -/
def checkHasEq : List String → Except PyError Unit
  | [] => .ok ()
  | a :: rest =>
    if strContains a "=" then checkHasEq rest
    else .error (.valueError ("build_args should be of the form \"name=value\". Got \"" ++ a ++ "\"."))

/-- Lines 52-59 of build.py: validate, then (outside the loop!) normalise the
*last* argument's key to upper case and emit `['--build-arg', <that one
normalised arg>]` once per requested build-arg.  An empty (non-`None`) list
reaches `arg.split('=')` with `arg` unbound, a `NameError`. -/
def build_images_extraArgs : Option (List String) → Except PyError (List String)
  | none => .ok []
  | some ba =>
    match checkHasEq ba with
    | .error e => .error e
    | .ok _ =>
      match ba.getLast? with
      | none => .error .nameError
      | some lastArg =>
        let parts := pySplit '=' lastArg
        let normalized := pyUpper (parts.headD "") ++ "=" ++ parts.getD 1 ""
        .ok (ba.map (fun _ => ["--build-arg", normalized])).flatten

/-! ## Lock-file handling (src/build.py `Builder`) -/

/-- Glob pattern `conda-*lock.yml` applied to a file name. -/
def matchCondaLock (fn : String) : Bool :=
  pyStartsWith fn "conda-" && pyEndsWith (fn.drop 6) "lock.yml"

/-- Glob pattern `conda-*.yml` applied to a file name. -/
def matchCondaYml (fn : String) : Bool :=
  pyStartsWith fn "conda-" && pyEndsWith (fn.drop 6) ".yml"

/-- `os.unlink`: remove a file, raising if it does not exist. -/
def unlink (files : List String) (f : String) : Option (List String) :=
  if files.contains f then some (files.erase f) else none

/-- The `for lockfile in lockfiles: os.unlink(lockfile)` loop. -/
def unlinkAll : List String → List String → Option (List String)
  | fs, [] => some fs
  | fs, f :: rest =>
    match unlink fs f with
    | none => none
    | some fs2 => unlinkAll fs2 rest

/-- `Builder.remove_lockfiles` (src/build.py lines 143-155): glob
`{image}/conda-*lock.yml` and unlink every match.  The directory is embedded
as its list of file names; the result is the directory contents afterwards
(`none` if an unlink failed). -/
def remove_lockfiles (files : List String) : Option (List String) :=
  unlinkAll files (files.filter matchCondaLock)

/-- Captured result of `subprocess.run(..., capture_output=True)`. -/
structure CmdResult where
  stdout : String
deriving DecidableEq, Repr

/-- `Builder.run` (src/build.py lines 43-67): in dry-run mode return `None`
without executing; otherwise execute and capture stdout.  The external world
is an oracle `outputs` from command line to captured stdout. -/
def runModel (dryrun : Bool) (outputs : String → String) (cmd : String) : Option CmdResult :=
  if dryrun then none else some ⟨outputs cmd⟩

/-- The environment files selected by `update_lockfiles` (src/build.py lines
179-180): glob `{image}/conda-*.yml` (full paths) filtered by
`'lock' not in env` — note the filter applies to the whole path. -/
def selectEnvs (image : String) (files : List String) : List String :=
  ((files.filter matchCondaYml).map (fun fn => image ++ "/" ++ fn)).filter
    (fun env => !strContains env "lock")

/-- `re.match(rf"{image}/conda-(.*).yml", env)[1]` for an `env` produced by the
glob above, i.e. of the form `image ++ "/conda-" ++ mid ++ ".yml"`: the greedy
`(.*)` captures everything between `conda-` and the trailing `.yml`. -/
def envNameFromPath (image env : String) : String :=
  (env.drop (image.length + 7)).dropRight 4

/-- The docker-run command constructed at src/build.py lines 184-185.  The two
f-string fragments are concatenated with NO space between `{tag}` and `mamba`:
`f'docker run --entrypoint="" --rm {extra_args} {tag}' f'mamba env export -n {env_name}'`. -/
def lockCmd (extra tagSuffix envName : String) : String :=
  "docker run --entrypoint=\"\" --rm " ++ extra ++ " " ++ tagSuffix
    ++ "mamba env export -n " ++ envName

/-- Does a line contain the token `name:`? -/
def hasNameTok (l : String) : Bool :=
  strContains l "name:"

/-- The `include` flag loop of `update_lockfiles` (src/build.py lines 188-194):
once a line containing `name:` is seen, that line and all later lines are kept. -/
def captureFrom : Bool → List String → List String
  | _, [] => []
  | inc, l :: ls =>
    let inc2 := inc || hasNameTok l
    if inc2 then l :: captureFrom inc2 ls else captureFrom inc2 ls

/-- Filtered text written to the lock file: the kept lines re-joined with
newlines (src/build.py lines 190-196; `result.stdout.split("\n")`). -/
def processStdout (out : String) : String :=
  String.intercalate "\n" (captureFrom false (pySplit '\n' out))

/-- Outcome of `update_lockfiles`: every command executed (in order) and every
file write performed, as `(path, text)` pairs. -/
structure LockResult where
  commands : List String
  writes : List (String × String)
deriving DecidableEq, Repr

/-- The `for env in envfiles:` loop of `update_lockfiles` (src/build.py lines
181-196).  In dry-run mode `run` returns `None` and `result.stdout` raises
`AttributeError`. -/
def lockLoop (dryrun : Bool) (outputs : String → String) (image tagSuffix extra : String) :
    List String → Except PyError LockResult
  | [] => .ok ⟨[], []⟩
  | env :: rest =>
    let envName := envNameFromPath image env
    let cmd := lockCmd extra tagSuffix envName
    match runModel dryrun outputs cmd with
    | none => .error .attributeError
    | some result =>
      let text := processStdout result.stdout
      match lockLoop dryrun outputs image tagSuffix extra rest with
      | .error e => .error e
      | .ok r => .ok ⟨cmd :: r.commands, (image ++ "/conda-" ++ envName ++ "-lock.yml", text) :: r.writes⟩

/-- `Builder.update_lockfiles` of src/build.py (lines 157-196): validate the
tag, take its post-colon suffix, default `extra_args` to the empty string,
select the non-lock environment files and process each one. -/
def update_lockfiles (dryrun : Bool) (outputs : String → String) (image tag : String)
    (extra_args : Option String) (files : List String) : Except PyError LockResult :=
  if strContains tag ":" then
    lockLoop dryrun outputs image (afterLastColon tag)
      (match extra_args with | none => "" | some s => s)
      (selectEnvs image files)
  else .error (.valueError ("tag: " ++ tag ++ " is not a str the form repo:tag"))

/-- Whitespace-separated tokens of a shell command string. -/
def wsTokens (s : String) : List String :=
  (pySplit ' ' s).filter (fun t => !(t = ""))

/-! ## Toolkit lemmas about the string primitives -/

theorem containsFrom_nil_needle (l : List Char) : containsFrom [] l = true := by
  induction l with
  | nil => rfl
  | cons c cs ih => simp [containsFrom, List.isPrefixOf]

theorem isPrefixOf_append_right {p l : List Char} (t : List Char)
    (h : p.isPrefixOf l = true) : p.isPrefixOf (l ++ t) = true := by
  induction p generalizing l with
  | nil => simp [List.isPrefixOf]
  | cons a as ih =>
    cases l with
    | nil => simp [List.isPrefixOf] at h
    | cons b bs =>
      simp only [List.isPrefixOf, Bool.and_eq_true] at h
      simp only [List.cons_append, List.isPrefixOf, Bool.and_eq_true]
      exact ⟨h.1, ih h.2⟩

theorem isPrefixOf_self_append (l t : List Char) : l.isPrefixOf (l ++ t) = true := by
  induction l with
  | nil => simp [List.isPrefixOf]
  | cons a as ih => simp [List.isPrefixOf, ih]

theorem containsFrom_of_isPrefixOf {n l : List Char} (h : n.isPrefixOf l = true) :
    containsFrom n l = true := by
  cases l with
  | nil =>
    cases n with
    | nil => rfl
    | cons a as => simp [List.isPrefixOf] at h
  | cons c cs => simp [containsFrom, h]

theorem containsFrom_append_right {n l : List Char} (t : List Char)
    (h : containsFrom n l = true) : containsFrom n (l ++ t) = true := by
  induction l with
  | nil =>
    simp only [containsFrom] at h
    simp only [List.nil_append]
    have : n = [] := by
      cases n with
      | nil => rfl
      | cons a as => simp at h
    subst this
    exact containsFrom_nil_needle t
  | cons c cs ih =>
    simp only [containsFrom, Bool.or_eq_true] at h
    rcases h with h | h
    · simp only [List.cons_append, containsFrom, Bool.or_eq_true]
      exact Or.inl (by simpa [List.cons_append] using isPrefixOf_append_right t h)
    · simp only [List.cons_append, containsFrom, Bool.or_eq_true]
      exact Or.inr (ih h)

theorem strContains_append_right (s t sub : String) (h : strContains s sub = true) :
    strContains (s ++ t) sub = true := by
  unfold strContains at h ⊢
  rw [String.data_append]
  exact containsFrom_append_right t.data h

theorem pyStartsWith_self_append (p s : String) : pyStartsWith (p ++ s) p = true := by
  unfold pyStartsWith
  rw [String.data_append]
  exact isPrefixOf_self_append p.data s.data

theorem strContains_of_pyStartsWith {s p : String} (h : pyStartsWith s p = true) :
    strContains s p = true := by
  unfold pyStartsWith at h
  unfold strContains
  exact containsFrom_of_isPrefixOf h

theorem isPrefixOf_false_of_head_ne {a b : Char} (as bs : List Char) (h : a ≠ b) :
    (a :: as).isPrefixOf (b :: bs) = false := by
  simp [List.isPrefixOf, h]

theorem strAppend_left_cancel {s a b : String} (h : s ++ a = s ++ b) : a = b := by
  apply String.ext
  have := congrArg String.data h
  rw [String.data_append, String.data_append] at this
  exact List.append_cancel_left this

theorem strAppend_ne_of_take (p q x y : String) (n : Nat)
    (h1 : n ≤ p.data.length) (h2 : n ≤ q.data.length)
    (hne : p.data.take n ≠ q.data.take n) : p ++ x ≠ q ++ y := by
  intro h
  apply hne
  have hd := congrArg String.data h
  rw [String.data_append, String.data_append] at hd
  have := congrArg (List.take n) hd
  rwa [List.take_append_of_le_length h1, List.take_append_of_le_length h2] at this

theorem take_reconstruct {l : List Char} (h : '=' ∈ l) :
    l.takeWhile (fun c => c != '=') ++ '=' :: (l.dropWhile (fun c => c != '=')).tail = l := by
  induction l with
  | nil => cases h
  | cons c cs ih =>
    by_cases hc : c = '='
    · subst hc
      simp [List.takeWhile, List.dropWhile]
    · have hmem : '=' ∈ cs := by
        cases h with
        | head => exact absurd rfl hc
        | tail _ h => exact h
      have hb : (c != '=') = true := by simp [hc]
      simp only [List.takeWhile, List.dropWhile, hb, List.cons_append]
      rw [ih hmem]

theorem flagOf_eq {a : String} (h : 1 ≤ countEq a '=') : flagOf a = "--build-arg " ++ a := by
  have hmem : '=' ∈ a.data := by
    by_contra hmm
    have h0 : a.data.count '=' = 0 := List.count_eq_zero.mpr hmm
    unfold countEq at h
    omega
  apply String.ext
  unfold flagOf splitFirst
  simp only [String.data_append]
  show "--build-arg ".data ++ (a.data.takeWhile (fun c => c != '='))
      ++ "=".data ++ (a.data.dropWhile (fun c => c != '=')).tail = "--build-arg ".data ++ a.data
  have : ("=".data : List Char) = ['='] := rfl
  rw [this]
  rw [List.append_assoc, List.append_assoc]
  congr 1
  rw [← List.append_assoc]
  simpa using take_reconstruct hmem

theorem toFlags_ok_inv {l : List String} {fl : List String} (h : toFlags l = .ok fl) :
    (∀ a ∈ l, countEq a '=' = 1) ∧ fl = l.map (fun a => "--build-arg " ++ a) := by
  induction l generalizing fl with
  | nil =>
    simp only [toFlags] at h
    cases h
    refine ⟨?_, rfl⟩
    intro a ha
    cases ha
  | cons arg rest ih =>
    simp only [toFlags] at h
    by_cases hc : countEq arg '=' = 1
    · rw [if_pos hc] at h
      cases hrest : toFlags rest with
      | error e => rw [hrest] at h; cases h
      | ok flags =>
        rw [hrest] at h
        cases h
        obtain ⟨h1, h2⟩ := ih hrest
        refine ⟨?_, ?_⟩
        · intro a ha
          cases ha with
          | head => exact hc
          | tail _ ha => exact h1 a ha
        · simp only [List.map]
          rw [← h2, flagOf_eq (by omega)]
    · rw [if_neg hc] at h
      cases h

theorem toFlags_error_of {l : List String} (h : ∃ a ∈ l, countEq a '=' ≠ 1) :
    ∃ m, toFlags l = .error (.valueError m) := by
  induction l with
  | nil => obtain ⟨a, ha, _⟩ := h; cases ha
  | cons arg rest ih =>
    by_cases hc : countEq arg '=' = 1
    · obtain ⟨a, ha, hne⟩ := h
      have hrest : ∃ a ∈ rest, countEq a '=' ≠ 1 := by
        cases ha with
        | head => exact absurd hc hne
        | tail _ ha => exact ⟨a, ha, hne⟩
      obtain ⟨m, hm⟩ := ih hrest
      refine ⟨m, ?_⟩
      simp only [toFlags, if_pos hc, hm]
    · refine ⟨"build_args should be of the form 'name=value'. Got '" ++ arg ++ "'.", ?_⟩
      simp only [toFlags, if_neg hc]

theorem hasKey_append (k : String) (l1 l2 : List String) :
    hasKey k (l1 ++ l2) = (hasKey k l1 || hasKey k l2) := by
  unfold hasKey
  exact List.any_append

theorem hasKey_singleton (k d : String) : hasKey k [d] = pyStartsWith d (k ++ "=") := by
  simp [hasKey, List.any]

theorem pyStartsWith_false_head {s p : String} {c d : Char} {cs ds : List Char}
    (hs : s.data = c :: cs) (hp : p.data = d :: ds) (hne : d ≠ c) :
    pyStartsWith s p = false := by
  unfold pyStartsWith
  rw [hs, hp]
  exact isPrefixOf_false_of_head_ne _ _ hne

theorem data_append_cons {p : String} {c : Char} {cs : List Char} (h : p.data = c :: cs)
    (v : String) : (p ++ v).data = c :: (cs ++ v.data) := by
  rw [String.data_append, h, List.cons_append]

theorem injectDefaults_two (k1 k2 v1 v2 : String) (args : List String)
    (h21 : pyStartsWith (k1 ++ "=" ++ v1) (k2 ++ "=") = false) :
    injectDefaults [(k1, v1), (k2, v2)] args =
      args ++ (if hasKey k1 args then [] else [k1 ++ "=" ++ v1])
           ++ (if hasKey k2 args then [] else [k2 ++ "=" ++ v2]) := by
  unfold injectDefaults
  simp only [List.foldl]
  cases h1 : hasKey k1 args with
  | true =>
    simp only [h1, if_true]
    cases h2 : hasKey k2 args with
    | true => simp [h2]
    | false => simp [h2]
  | false =>
    have h2eq : hasKey k2 (args ++ [k1 ++ "=" ++ v1]) = hasKey k2 args := by
      rw [hasKey_append, hasKey_singleton, h21, Bool.or_false]
    simp only [h1, Bool.false_eq_true, if_false, h2eq]
    cases h2 : hasKey k2 args with
    | true => simp [h2]
    | false => simp [h2]

theorem injectDefaults_three (k1 k2 k3 v1 v2 v3 : String) (args : List String)
    (h21 : pyStartsWith (k1 ++ "=" ++ v1) (k2 ++ "=") = false)
    (h31 : pyStartsWith (k1 ++ "=" ++ v1) (k3 ++ "=") = false)
    (h32 : pyStartsWith (k2 ++ "=" ++ v2) (k3 ++ "=") = false) :
    injectDefaults [(k1, v1), (k2, v2), (k3, v3)] args =
      args ++ (if hasKey k1 args then [] else [k1 ++ "=" ++ v1])
           ++ (if hasKey k2 args then [] else [k2 ++ "=" ++ v2])
           ++ (if hasKey k3 args then [] else [k3 ++ "=" ++ v3]) := by
  unfold injectDefaults
  simp only [List.foldl]
  cases h1 : hasKey k1 args with
  | true =>
    simp only [h1, if_true]
    cases h2 : hasKey k2 args with
    | true =>
      simp only [h2, if_true]
      cases h3 : hasKey k3 args with
      | true => simp [h3]
      | false => simp [h3]
    | false =>
      have h3eq : hasKey k3 (args ++ [k2 ++ "=" ++ v2]) = hasKey k3 args := by
        rw [hasKey_append, hasKey_singleton, h32, Bool.or_false]
      simp only [h2, Bool.false_eq_true, if_false, h3eq]
      cases h3 : hasKey k3 args with
      | true => simp [h3]
      | false => simp [h3]
  | false =>
    have h2eq : hasKey k2 (args ++ [k1 ++ "=" ++ v1]) = hasKey k2 args := by
      rw [hasKey_append, hasKey_singleton, h21, Bool.or_false]
    simp only [h1, Bool.false_eq_true, if_false, h2eq]
    cases h2 : hasKey k2 args with
    | true =>
      simp only [if_true]
      have h3eq : hasKey k3 (args ++ [k1 ++ "=" ++ v1]) = hasKey k3 args := by
        rw [hasKey_append, hasKey_singleton, h31, Bool.or_false]
      simp only [h3eq]
      cases h3 : hasKey k3 args with
      | true => simp [h3]
      | false => simp [h3]
    | false =>
      simp only [Bool.false_eq_true, if_false]
      have h3eq : hasKey k3 (args ++ [k1 ++ "=" ++ v1] ++ [k2 ++ "=" ++ v2]) = hasKey k3 args := by
        rw [hasKey_append, hasKey_append, hasKey_singleton, hasKey_singleton, h31, h32]
        simp
      simp only [h3eq]
      cases h3 : hasKey k3 args with
      | true => simp [h3]
      | false => simp [h3]

theorem inject_buildMapping (repo efft : String) (args : List String) :
    injectDefaults (buildMapping repo efft) args =
      args ++ (if hasKey "REPOSITORY" args then [] else ["REPOSITORY=" ++ repo])
           ++ (if hasKey "IMAGE_TAG" args then [] else ["IMAGE_TAG=" ++ efft]) := by
  have h := injectDefaults_two "REPOSITORY" "IMAGE_TAG" repo efft args
    (pyStartsWith_false_head (data_append_cons rfl repo) rfl (by decide))
  exact h

theorem inject_buildimagesMapping (repo efft : String) (args : List String) :
    injectDefaults (buildimagesMapping repo efft) args =
      args ++ (if hasKey "REPOSITORY" args then [] else ["REPOSITORY=" ++ repo])
           ++ (if hasKey "BASE_IMAGE_TAG" args then [] else ["BASE_IMAGE_TAG=" ++ efft])
           ++ (if hasKey "IMAGE_TAG" args then [] else ["IMAGE_TAG=" ++ efft]) := by
  have h := injectDefaults_three "REPOSITORY" "BASE_IMAGE_TAG" "IMAGE_TAG" repo efft efft args
    (pyStartsWith_false_head (data_append_cons rfl repo) rfl (by decide))
    (pyStartsWith_false_head (data_append_cons rfl repo) rfl (by decide))
    (pyStartsWith_false_head (data_append_cons rfl efft) rfl (by decide))
  exact h

theorem map_pyStrip_id {l : List String} (h : ∀ a ∈ l, pyStrip a = a) :
    l.map pyStrip = l := by
  induction l with
  | nil => rfl
  | cons a rest ih =>
    simp only [List.map]
    rw [h a (by simp), ih (fun x hx => h x (by simp [hx]))]

/-! ## Characterizations of the two `Builder.build` variants -/

theorem build_ok_inv {repo image tag : String} {args : List String} {extra : Option String}
    {out : BuildOutput} (htrim : ∀ a ∈ args, pyStrip a = a)
    (hok : build repo image tag args extra = .ok out) :
    out.cmdArgs = args.map (fun a => "--build-arg " ++ a)
      ++ (if hasKey "REPOSITORY" args then [] else ["--build-arg REPOSITORY=" ++ repo])
      ++ (if hasKey "IMAGE_TAG" args then [] else ["--build-arg IMAGE_TAG=" ++ effectiveTag tag])
      ++ extraList extra
    ∧ out.tagUsed = effectiveTag tag := by
  simp only [build] at hok
  rw [map_pyStrip_id htrim, inject_buildMapping] at hok
  cases hfl : toFlags (args ++ (if hasKey "REPOSITORY" args then [] else ["REPOSITORY=" ++ repo])
      ++ (if hasKey "IMAGE_TAG" args then [] else ["IMAGE_TAG=" ++ effectiveTag tag])) with
  | error e => rw [hfl] at hok; cases hok
  | ok flags =>
    rw [hfl] at hok
    obtain ⟨_, hflags⟩ := toFlags_ok_inv hfl
    cases hok
    constructor
    · show flags ++ extraList extra = _
      rw [hflags, List.map_append, List.map_append]
      have er : (List.map (fun a => "--build-arg " ++ a)
            (if hasKey "REPOSITORY" args then [] else ["REPOSITORY=" ++ repo]))
          = (if hasKey "REPOSITORY" args then [] else ["--build-arg REPOSITORY=" ++ repo]) := by
        cases hasKey "REPOSITORY" args <;> rfl
      have et : (List.map (fun a => "--build-arg " ++ a)
            (if hasKey "IMAGE_TAG" args then [] else ["IMAGE_TAG=" ++ effectiveTag tag]))
          = (if hasKey "IMAGE_TAG" args then [] else ["--build-arg IMAGE_TAG=" ++ effectiveTag tag]) := by
        cases hasKey "IMAGE_TAG" args <;> rfl
      rw [er, et]
    · rfl

theorem buildimages_ok_inv {repo image tag : String} {args : List String} {pars : Option String}
    {out : BuildOutput} (htrim : ∀ a ∈ args, pyStrip a = a)
    (hcolon : strContains tag ":" = true)
    (hok : buildimages_build repo image tag args pars = .ok out) :
    out.cmdArgs = args.map (fun a => "--build-arg " ++ a)
      ++ (if hasKey "REPOSITORY" args then [] else ["--build-arg REPOSITORY=" ++ repo])
      ++ (if hasKey "BASE_IMAGE_TAG" args then [] else ["--build-arg BASE_IMAGE_TAG=" ++ afterLastColon tag])
      ++ (if hasKey "IMAGE_TAG" args then [] else ["--build-arg IMAGE_TAG=" ++ afterLastColon tag])
      ++ extraList pars
    ∧ out.tagUsed = tag := by
  simp only [buildimages_build, hcolon, if_true] at hok
  rw [map_pyStrip_id htrim, inject_buildimagesMapping] at hok
  cases hfl : toFlags (args ++ (if hasKey "REPOSITORY" args then [] else ["REPOSITORY=" ++ repo])
      ++ (if hasKey "BASE_IMAGE_TAG" args then [] else ["BASE_IMAGE_TAG=" ++ afterLastColon tag])
      ++ (if hasKey "IMAGE_TAG" args then [] else ["IMAGE_TAG=" ++ afterLastColon tag])) with
  | error e => rw [hfl] at hok; cases hok
  | ok flags =>
    rw [hfl] at hok
    obtain ⟨_, hflags⟩ := toFlags_ok_inv hfl
    cases hok
    constructor
    · show flags ++ extraList pars = _
      rw [hflags, List.map_append, List.map_append, List.map_append]
      have er : (List.map (fun a => "--build-arg " ++ a)
            (if hasKey "REPOSITORY" args then [] else ["REPOSITORY=" ++ repo]))
          = (if hasKey "REPOSITORY" args then [] else ["--build-arg REPOSITORY=" ++ repo]) := by
        cases hasKey "REPOSITORY" args <;> rfl
      have eb : (List.map (fun a => "--build-arg " ++ a)
            (if hasKey "BASE_IMAGE_TAG" args then [] else ["BASE_IMAGE_TAG=" ++ afterLastColon tag]))
          = (if hasKey "BASE_IMAGE_TAG" args then []
             else ["--build-arg BASE_IMAGE_TAG=" ++ afterLastColon tag]) := by
        cases hasKey "BASE_IMAGE_TAG" args <;> rfl
      have et : (List.map (fun a => "--build-arg " ++ a)
            (if hasKey "IMAGE_TAG" args then [] else ["IMAGE_TAG=" ++ afterLastColon tag]))
          = (if hasKey "IMAGE_TAG" args then [] else ["--build-arg IMAGE_TAG=" ++ afterLastColon tag]) := by
        cases hasKey "IMAGE_TAG" args <;> rfl
      rw [er, eb, et]
    · rfl

/-! ## Counting helpers for the generated flag lists -/

theorem count_flag_map_zero {args : List String} {key v : String}
    (hn : hasKey key args = false) :
    (args.map (fun a => "--build-arg " ++ a)).count ("--build-arg " ++ (key ++ "=" ++ v)) = 0 := by
  apply List.count_eq_zero.mpr
  intro hmem
  rw [List.mem_map] at hmem
  obtain ⟨a, ha, he⟩ := hmem
  have hav : a = key ++ "=" ++ v := strAppend_left_cancel he
  subst hav
  have hsw : pyStartsWith (key ++ "=" ++ v) (key ++ "=") = true := pyStartsWith_self_append _ _
  unfold hasKey at hn
  rw [List.any_eq_false] at hn
  exact hn _ ha hsw

theorem count_extraList_zero {extra : Option String} {flag : String}
    (hf : strContains flag "--build-arg" = true)
    (hx : ∀ e, extra = some e → strContains e "--build-arg" = false) :
    (extraList extra).count flag = 0 := by
  cases extra with
  | none => rfl
  | some e =>
    unfold extraList
    by_cases he : e = ""
    · simp [he]
    · simp only [he, if_false]
      apply List.count_eq_zero.mpr
      intro hmem
      have : flag = e := by simpa using hmem
      rw [← this] at hx
      have := hx flag rfl
      rw [hf] at this
      cases this

theorem repoFlag_contains_buildArg (r : String) :
    strContains ("--build-arg REPOSITORY=" ++ r) "--build-arg" = true := by
  apply strContains_of_pyStartsWith
  show ("--build-arg".data).isPrefixOf (("--build-arg REPOSITORY=" ++ r).data) = true
  rw [String.data_append]
  have h : "--build-arg REPOSITORY=".data
      = "--build-arg".data ++ " REPOSITORY=".data := rfl
  rw [h, List.append_assoc]
  exact isPrefixOf_self_append _ _

theorem tagFlag_contains_buildArg (t : String) :
    strContains ("--build-arg IMAGE_TAG=" ++ t) "--build-arg" = true := by
  apply strContains_of_pyStartsWith
  show ("--build-arg".data).isPrefixOf (("--build-arg IMAGE_TAG=" ++ t).data) = true
  rw [String.data_append]
  have h : "--build-arg IMAGE_TAG=".data
      = "--build-arg".data ++ " IMAGE_TAG=".data := rfl
  rw [h, List.append_assoc]
  exact isPrefixOf_self_append _ _

theorem repoFlag_ne_tagFlag (r t : String) :
    ("--build-arg REPOSITORY=" ++ r) ≠ ("--build-arg IMAGE_TAG=" ++ t) :=
  strAppend_ne_of_take _ _ _ _ 13 (by decide) (by decide) (by decide)

theorem baseFlag_ne_tagFlag (b t : String) :
    ("--build-arg BASE_IMAGE_TAG=" ++ b) ≠ ("--build-arg IMAGE_TAG=" ++ t) :=
  strAppend_ne_of_take _ _ _ _ 13 (by decide) (by decide) (by decide)

theorem repoFlag_ne_baseFlag (r b : String) :
    ("--build-arg REPOSITORY=" ++ r) ≠ ("--build-arg BASE_IMAGE_TAG=" ++ b) :=
  strAppend_ne_of_take _ _ _ _ 13 (by decide) (by decide) (by decide)

theorem count_repoFlag_map_zero {args : List String} (v : String)
    (hn : hasKey "REPOSITORY" args = false) :
    (args.map (fun a => "--build-arg " ++ a)).count ("--build-arg REPOSITORY=" ++ v) = 0 :=
  @count_flag_map_zero args "REPOSITORY" v hn

theorem count_tagFlag_map_zero {args : List String} (v : String)
    (hn : hasKey "IMAGE_TAG" args = false) :
    (args.map (fun a => "--build-arg " ++ a)).count ("--build-arg IMAGE_TAG=" ++ v) = 0 :=
  @count_flag_map_zero args "IMAGE_TAG" v hn

/-- C1: for `Builder.build` (both the `src/build.py` variant and the
`src/buildimages.py` variant), if the caller-supplied `build_args` contain no
entry whose key is `REPOSITORY` or `IMAGE_TAG`, the generated argument list of
the `docker build` command contains exactly one `--build-arg REPOSITORY=<repo>`
flag and exactly one `--build-arg IMAGE_TAG=<effective tag>` flag, both placed
after all caller-supplied `--build-arg` flags, which appear in caller order;
and when the caller does supply a build-arg with one of those keys, no default
for that key is injected and the caller's entries appear verbatim.  Caller
args are assumed whitespace-trimmed, and the optional extra-args string is
assumed not to contain `--build-arg` (the orchestrator `main` rejects such
strings before any build). -/
theorem build_injects_default_args (repo image tag : String) (args : List String)
    (extra : Option String) (out : BuildOutput)
    (htrim : ∀ a ∈ args, pyStrip a = a)
    (hx : ∀ e, extra = some e → strContains e "--build-arg" = false) :
    (build repo image tag args extra = .ok out →
      (hasKey "REPOSITORY" args = false → hasKey "IMAGE_TAG" args = false →
        out.cmdArgs = args.map (fun a => "--build-arg " ++ a)
            ++ ["--build-arg REPOSITORY=" ++ repo,
                "--build-arg IMAGE_TAG=" ++ effectiveTag tag]
            ++ extraList extra
        ∧ out.cmdArgs.count ("--build-arg REPOSITORY=" ++ repo) = 1
        ∧ out.cmdArgs.count ("--build-arg IMAGE_TAG=" ++ effectiveTag tag) = 1)
      ∧ (hasKey "REPOSITORY" args = true →
          out.cmdArgs = args.map (fun a => "--build-arg " ++ a)
            ++ (if hasKey "IMAGE_TAG" args then []
                else ["--build-arg IMAGE_TAG=" ++ effectiveTag tag])
            ++ extraList extra)
      ∧ (hasKey "IMAGE_TAG" args = true →
          out.cmdArgs = args.map (fun a => "--build-arg " ++ a)
            ++ (if hasKey "REPOSITORY" args then []
                else ["--build-arg REPOSITORY=" ++ repo])
            ++ extraList extra))
    ∧ (buildimages_build repo image tag args extra = .ok out →
        hasKey "REPOSITORY" args = false → hasKey "IMAGE_TAG" args = false →
        out.cmdArgs = args.map (fun a => "--build-arg " ++ a)
            ++ (["--build-arg REPOSITORY=" ++ repo]
                ++ (if hasKey "BASE_IMAGE_TAG" args then []
                    else ["--build-arg BASE_IMAGE_TAG=" ++ afterLastColon tag])
                ++ ["--build-arg IMAGE_TAG=" ++ afterLastColon tag])
            ++ extraList extra
        ∧ out.cmdArgs.count ("--build-arg REPOSITORY=" ++ repo) = 1
        ∧ out.cmdArgs.count ("--build-arg IMAGE_TAG=" ++ afterLastColon tag) = 1) := by
  constructor
  · intro hok
    have heq := (build_ok_inv htrim hok).1
    refine ⟨?_, ?_, ?_⟩
    · intro hR hI
      simp only [hR, hI, Bool.false_eq_true, if_false] at heq
      have heq2 : out.cmdArgs = (args.map (fun a => "--build-arg " ++ a)
          ++ ["--build-arg REPOSITORY=" ++ repo,
              "--build-arg IMAGE_TAG=" ++ effectiveTag tag])
          ++ extraList extra := by
        rw [heq]; simp [List.append_assoc]
      refine ⟨heq2, ?_, ?_⟩
      · rw [heq2]
        rw [List.count_append, List.count_append]
        have cA := count_repoFlag_map_zero repo hR
        have cE : (extraList extra).count ("--build-arg REPOSITORY=" ++ repo) = 0 :=
          count_extraList_zero (repoFlag_contains_buildArg repo) hx
        have hne : ("--build-arg IMAGE_TAG=" ++ effectiveTag tag)
            ≠ ("--build-arg REPOSITORY=" ++ repo) := (repoFlag_ne_tagFlag repo _).symm
        have cM : (["--build-arg REPOSITORY=" ++ repo,
            "--build-arg IMAGE_TAG=" ++ effectiveTag tag]).count
              ("--build-arg REPOSITORY=" ++ repo) = 1 := by
          simp [List.count_cons, hne]
        omega
      · rw [heq2]
        rw [List.count_append, List.count_append]
        have cA := count_tagFlag_map_zero (effectiveTag tag) hI
        have cE : (extraList extra).count ("--build-arg IMAGE_TAG=" ++ effectiveTag tag) = 0 :=
          count_extraList_zero (tagFlag_contains_buildArg _) hx
        have hne : ("--build-arg REPOSITORY=" ++ repo)
            ≠ ("--build-arg IMAGE_TAG=" ++ effectiveTag tag) := repoFlag_ne_tagFlag repo _
        have cM : (["--build-arg REPOSITORY=" ++ repo,
            "--build-arg IMAGE_TAG=" ++ effectiveTag tag]).count
              ("--build-arg IMAGE_TAG=" ++ effectiveTag tag) = 1 := by
          simp [List.count_cons, hne]
        omega
    · intro hR
      simp only [hR, if_true] at heq
      rw [heq]
      simp [List.append_assoc]
    · intro hI
      simp only [hI, if_true] at heq
      rw [heq]
      simp [List.append_assoc]
  · intro hok hR hI
    cases hc : strContains tag ":" with
    | false =>
      simp only [buildimages_build, hc, Bool.false_eq_true, if_false] at hok
      cases hok
    | true =>
      have heq := (buildimages_ok_inv htrim hc hok).1
      simp only [hR, hI, Bool.false_eq_true, if_false] at heq
      have heq2 : out.cmdArgs = args.map (fun a => "--build-arg " ++ a)
          ++ (["--build-arg REPOSITORY=" ++ repo]
              ++ (if hasKey "BASE_IMAGE_TAG" args then []
                  else ["--build-arg BASE_IMAGE_TAG=" ++ afterLastColon tag])
              ++ ["--build-arg IMAGE_TAG=" ++ afterLastColon tag])
          ++ extraList extra := by
        rw [heq]; simp [List.append_assoc]
      refine ⟨heq2, ?_, ?_⟩
      · rw [heq2]
        rw [List.count_append, List.count_append, List.count_append, List.count_append]
        have cA := count_repoFlag_map_zero repo hR
        have cE : (extraList extra).count ("--build-arg REPOSITORY=" ++ repo) = 0 :=
          count_extraList_zero (repoFlag_contains_buildArg repo) hx
        have c1 : (["--build-arg REPOSITORY=" ++ repo]).count
            ("--build-arg REPOSITORY=" ++ repo) = 1 := by simp
        have c2 : (if hasKey "BASE_IMAGE_TAG" args then []
            else ["--build-arg BASE_IMAGE_TAG=" ++ afterLastColon tag]).count
              ("--build-arg REPOSITORY=" ++ repo) = 0 := by
          cases hasKey "BASE_IMAGE_TAG" args with
          | true => simp
          | false =>
            have hne : ("--build-arg BASE_IMAGE_TAG=" ++ afterLastColon tag)
                ≠ ("--build-arg REPOSITORY=" ++ repo) := (repoFlag_ne_baseFlag repo _).symm
            simp [List.count_cons, hne]
        have c3 : (["--build-arg IMAGE_TAG=" ++ afterLastColon tag]).count
            ("--build-arg REPOSITORY=" ++ repo) = 0 := by
          have hne : ("--build-arg IMAGE_TAG=" ++ afterLastColon tag)
              ≠ ("--build-arg REPOSITORY=" ++ repo) := (repoFlag_ne_tagFlag repo _).symm
          simp [List.count_cons, hne]
        omega
      · rw [heq2]
        rw [List.count_append, List.count_append, List.count_append, List.count_append]
        have cA := count_tagFlag_map_zero (afterLastColon tag) hI
        have cE : (extraList extra).count ("--build-arg IMAGE_TAG=" ++ afterLastColon tag) = 0 :=
          count_extraList_zero (tagFlag_contains_buildArg _) hx
        have c1 : (["--build-arg REPOSITORY=" ++ repo]).count
            ("--build-arg IMAGE_TAG=" ++ afterLastColon tag) = 0 := by
          have hne : ("--build-arg REPOSITORY=" ++ repo)
              ≠ ("--build-arg IMAGE_TAG=" ++ afterLastColon tag) := repoFlag_ne_tagFlag repo _
          simp [List.count_cons, hne]
        have c2 : (if hasKey "BASE_IMAGE_TAG" args then []
            else ["--build-arg BASE_IMAGE_TAG=" ++ afterLastColon tag]).count
              ("--build-arg IMAGE_TAG=" ++ afterLastColon tag) = 0 := by
          cases hasKey "BASE_IMAGE_TAG" args with
          | true => simp
          | false =>
            have hne : ("--build-arg BASE_IMAGE_TAG=" ++ afterLastColon tag)
                ≠ ("--build-arg IMAGE_TAG=" ++ afterLastColon tag) := baseFlag_ne_tagFlag _ _
            simp [List.count_cons, hne]
        have c3 : (["--build-arg IMAGE_TAG=" ++ afterLastColon tag]).count
            ("--build-arg IMAGE_TAG=" ++ afterLastColon tag) = 1 := by simp
        omega

/-- C1 witness: the spec's concrete example — caller args `ENV=val`, `ENV2=val`,
repo `some-repo`, tag `some-tag` — evaluated through the theorem: the
`REPOSITORY` default flag occurs exactly once in the generated argument list. -/
theorem build_injects_default_args_witness :
    (BuildOutput.mk
      ["--build-arg ENV=val", "--build-arg ENV2=val",
       "--build-arg REPOSITORY=some-repo", "--build-arg IMAGE_TAG=some-tag"]
      "some-tag"
      "docker build --build-arg ENV=val --build-arg ENV2=val --build-arg REPOSITORY=some-repo --build-arg IMAGE_TAG=some-tag --tag some-tag some-image").cmdArgs.count
        "--build-arg REPOSITORY=some-repo" = 1 := by
  have h := ((build_injects_default_args "some-repo" "some-image" "some-tag"
      ["ENV=val", "ENV2=val"] none
      (BuildOutput.mk
        ["--build-arg ENV=val", "--build-arg ENV2=val",
         "--build-arg REPOSITORY=some-repo", "--build-arg IMAGE_TAG=some-tag"]
        "some-tag"
        "docker build --build-arg ENV=val --build-arg ENV2=val --build-arg REPOSITORY=some-repo --build-arg IMAGE_TAG=some-tag --tag some-tag some-image")
      (by decide) (fun e he => nomatch he)).1 rfl).1 (by decide) (by decide)
  exact h.2.1

/-- C2 counterexample: in src/buildimages.py's `Builder.build` a `repo:tag`
tag is NOT reduced to its suffix in the final `--tag` flag — the generated
command tags the image `repo:mytag`, not `mytag` — and a tag without a colon
raises IndexError instead of being used as-is. -/
theorem buildimages_tag_flag_counterexample :
    buildimages_build "r" "img" "repo:mytag" [] none =
      .ok ⟨["--build-arg REPOSITORY=r", "--build-arg BASE_IMAGE_TAG=mytag",
            "--build-arg IMAGE_TAG=mytag"], "repo:mytag",
           "docker build --build-arg REPOSITORY=r --build-arg BASE_IMAGE_TAG=mytag --build-arg IMAGE_TAG=mytag --tag repo:mytag img"⟩
    ∧ afterLastColon "repo:mytag" = "mytag"
    ∧ ("repo:mytag" : String) ≠ "mytag"
    ∧ buildimages_build "r" "img" "plain" [] none = .error .indexError := by
  refine ⟨rfl, rfl, by decide, rfl⟩

/-- C2 (amended): in src/build.py's `Builder.build` the effective tag — the
suffix after the last colon when the tag contains a colon, the tag unchanged
otherwise — is used both for the injected `IMAGE_TAG` default value and for
the final `--tag` flag; in src/buildimages.py's `Builder.build` the suffix is
used only for the injected default build-arg values while the final `--tag`
flag keeps the original tag string, and a tag without a colon raises an
IndexError there instead of being used as-is. -/
theorem effective_tag_usage_amended (repo image tag : String) (args : List String)
    (extra : Option String) (htrim : ∀ a ∈ args, pyStrip a = a) :
    (∀ out, build repo image tag args extra = .ok out →
        out.tagUsed = effectiveTag tag
        ∧ (strContains tag ":" = true → out.tagUsed = afterLastColon tag)
        ∧ (strContains tag ":" = false → out.tagUsed = tag)
        ∧ (hasKey "IMAGE_TAG" args = false →
            ("--build-arg IMAGE_TAG=" ++ effectiveTag tag) ∈ out.cmdArgs))
    ∧ (∀ out, buildimages_build repo image tag args extra = .ok out →
        out.tagUsed = tag
        ∧ (hasKey "IMAGE_TAG" args = false →
            ("--build-arg IMAGE_TAG=" ++ afterLastColon tag) ∈ out.cmdArgs))
    ∧ (strContains tag ":" = false →
        buildimages_build repo image tag args extra = .error .indexError) := by
  refine ⟨?_, ?_, ?_⟩
  · intro out hok
    have hi := build_ok_inv htrim hok
    refine ⟨hi.2, ?_, ?_, ?_⟩
    · intro hc
      rw [hi.2]
      simp [effectiveTag, hc]
    · intro hc
      rw [hi.2]
      simp [effectiveTag, hc]
    · intro hI
      rw [hi.1]
      simp [hI]
  · intro out hok
    cases hc : strContains tag ":" with
    | false =>
      simp only [buildimages_build, hc, Bool.false_eq_true, if_false] at hok
      cases hok
    | true =>
      have hi := buildimages_ok_inv htrim hc hok
      refine ⟨hi.2, ?_⟩
      intro hI
      rw [hi.1]
      simp [hI]
  · intro hc
    simp [buildimages_build, hc]

/-- C2 witness: applying the theorem at `tag = "a:b"` (src/build.py build uses
the suffix `b` as the `--tag` value) and at the colon-free tag `plain`
(src/buildimages.py build raises IndexError). -/
theorem effective_tag_usage_amended_witness :
    buildimages_build "r" "i" "plain" [] none = .error .indexError
    ∧ (BuildOutput.mk ["--build-arg REPOSITORY=r", "--build-arg IMAGE_TAG=b"] "b"
        "docker build --build-arg REPOSITORY=r --build-arg IMAGE_TAG=b --tag b i").tagUsed
      = afterLastColon "a:b" := by
  constructor
  · exact (effective_tag_usage_amended "r" "i" "plain" [] none (by simp)).2.2 (by decide)
  · exact (((effective_tag_usage_amended "r" "i" "a:b" [] none (by simp)).1
      (BuildOutput.mk ["--build-arg REPOSITORY=r", "--build-arg IMAGE_TAG=b"] "b"
        "docker build --build-arg REPOSITORY=r --build-arg IMAGE_TAG=b --tag b i")
      rfl).2.1 (by decide))

/-- C4 counterexample: src/buildimages.py's `Builder.push` performs no
validation: for the colon-free tag `sometag` it still runs
`docker push sometag` instead of raising a validation error as the claim
requires. -/
theorem buildimages_push_counterexample :
    buildimages_push "sometag" = "docker push sometag"
    ∧ strContains "sometag" ":" = false := by
  refine ⟨rfl, by decide⟩

/-- C4 (amended): src/build.py's `Builder.push` raises a `ValueError` if and
only if the tag does not contain a colon, and for a tag with a colon runs
exactly `docker push <tag>` with the tag unmodified; src/buildimages.py's
`Builder.push` performs no validation and runs `docker push <tag>` for every
tag. -/
theorem push_validation_amended (tag : String) :
    ((∃ m, push tag = .error (.valueError m)) ↔ strContains tag ":" = false)
    ∧ (strContains tag ":" = true → push tag = .ok ("docker push " ++ tag))
    ∧ buildimages_push tag = "docker push " ++ tag := by
  refine ⟨⟨?_, ?_⟩, ?_, rfl⟩
  · intro ⟨m, hm⟩
    cases hc : strContains tag ":" with
    | false => rfl
    | true => simp [push, hc] at hm
  · intro hc
    refine ⟨"tag: " ++ tag ++ " is not a str the form repo:tag", ?_⟩
    simp [push, hc]
  · intro hc
    simp [push, hc]

/-- C4 witness: the theorem applied at `a:b` (accepted, runs the push command)
and at `plain` (rejected with a ValueError). -/
theorem push_validation_amended_witness :
    push "a:b" = .ok "docker push a:b"
    ∧ (∃ m, push "plain" = .error (.valueError m)) := by
  constructor
  · exact ((push_validation_amended "a:b").2.1 (by decide)).trans rfl
  · exact (push_validation_amended "plain").1.mpr (by decide)

theorem checkHasEq_error_of {l : List String} (h : ∃ a ∈ l, strContains a "=" = false) :
    ∃ m, checkHasEq l = .error (.valueError m) := by
  induction l with
  | nil => obtain ⟨a, ha, _⟩ := h; cases ha
  | cons x rest ih =>
    cases hx : strContains x "=" with
    | false =>
      refine ⟨"build_args should be of the form \"name=value\". Got \"" ++ x ++ "\".", ?_⟩
      simp [checkHasEq, hx]
    | true =>
      have hrest : ∃ a ∈ rest, strContains a "=" = false := by
        obtain ⟨a, ha, hfa⟩ := h
        cases ha with
        | head => rw [hx] at hfa; cases hfa
        | tail _ ha => exact ⟨a, ha, hfa⟩
      obtain ⟨m, hm⟩ := ih hrest
      exact ⟨m, by simp [checkHasEq, hx, hm]⟩

theorem checkHasEq_ok {l : List String} (h : ∀ a ∈ l, strContains a "=" = true) :
    checkHasEq l = .ok () := by
  induction l with
  | nil => rfl
  | cons x rest ih =>
    have hx : strContains x "=" = true := h x (by simp)
    simp [checkHasEq, hx, ih (fun a ha => h a (by simp [ha]))]

theorem getLast?_isSome_of_ne_nil {l : List String} (h : l ≠ []) : ∃ x, l.getLast? = some x := by
  induction l with
  | nil => exact absurd rfl h
  | cons a rest ih =>
    cases rest with
    | nil => exact ⟨a, rfl⟩
    | cons b bs =>
      obtain ⟨x, hx⟩ := ih (by simp)
      exact ⟨x, by rw [List.getLast?_cons_cons]; exact hx⟩

/-- C5 counterexample: the legacy `build_images` in build.py accepts the
build-arg `a=b=c`, which does not contain exactly one `=`, without raising,
and goes on to construct `--build-arg` flags (with the key upper-cased and the
value truncated at the second `=`). -/
theorem build_images_multi_eq_counterexample :
    build_images_extraArgs (some ["a=b=c"]) = .ok ["--build-arg", "A=b"]
    ∧ countEq "a=b=c" '=' = 2 := ⟨rfl, by decide⟩

/-- C5 (amended): both `Builder.build` variants raise a `ValueError` — and
hence generate and execute no command — whenever any build-arg entry, after
default injection, does not contain exactly one `=`; the legacy `build_images`
in build.py instead validates only that each entry contains at least one `=`:
it raises on an entry with no `=` but accepts entries with two or more. -/
theorem malformed_build_arg_amended :
    (∀ repo image tag args extra,
      (∃ a ∈ injectDefaults (buildMapping repo (effectiveTag tag)) (args.map pyStrip),
          countEq a '=' ≠ 1) →
      ∃ m, build repo image tag args extra = .error (.valueError m))
    ∧ (∀ repo image tag args pars, strContains tag ":" = true →
        (∃ a ∈ injectDefaults (buildimagesMapping repo (afterLastColon tag)) (args.map pyStrip),
            countEq a '=' ≠ 1) →
        ∃ m, buildimages_build repo image tag args pars = .error (.valueError m))
    ∧ (∀ ba, (∃ a ∈ ba, strContains a "=" = false) →
        ∃ m, build_images_extraArgs (some ba) = .error (.valueError m))
    ∧ (∀ ba, ba ≠ [] → (∀ a ∈ ba, strContains a "=" = true) →
        ∃ l, build_images_extraArgs (some ba) = .ok l) := by
  refine ⟨?_, ?_, ?_, ?_⟩
  · intro repo image tag args extra h
    obtain ⟨a, ha, hne⟩ := h
    obtain ⟨m, hm⟩ := toFlags_error_of ⟨a, ha, hne⟩
    refine ⟨m, ?_⟩
    simp only [build]
    rw [hm]
  · intro repo image tag args pars hc h
    obtain ⟨a, ha, hne⟩ := h
    obtain ⟨m, hm⟩ := toFlags_error_of ⟨a, ha, hne⟩
    refine ⟨m, ?_⟩
    simp only [buildimages_build, hc, if_true]
    rw [hm]
  · intro ba h
    obtain ⟨m, hm⟩ := checkHasEq_error_of h
    exact ⟨m, by simp [build_images_extraArgs, hm]⟩
  · intro ba hne hall
    obtain ⟨x, hx⟩ := getLast?_isSome_of_ne_nil hne
    refine ⟨(ba.map (fun _ => ["--build-arg",
      pyUpper ((pySplit '=' x).headD "") ++ "=" ++ (pySplit '=' x).getD 1 ""])).flatten, ?_⟩
    simp [build_images_extraArgs, checkHasEq_ok hall, hx]

/-- C5 witness: the theorem applied to the malformed build-arg `badarg`
(no `=`): `Builder.build` raises a ValueError. -/
theorem malformed_build_arg_amended_witness :
    ∃ m, build "r" "i" "t" ["badarg"] none = .error (.valueError m) :=
  malformed_build_arg_amended.1 "r" "i" "t" ["badarg"] none ⟨"badarg", by decide, by decide⟩

theorem checkKnown_ok {l : List String} (h : ∀ n ∈ l, n ∈ order) : checkKnown l = .ok () := by
  induction l with
  | nil => rfl
  | cons a rest ih =>
    have ha : a ∈ order := h a (by simp)
    simp [checkKnown, ha, ih (fun n hn => h n (by simp [hn]))]

theorem checkKnown_error {l : List String} (h : ∃ n ∈ l, n ∉ order) :
    checkKnown l = .error 2 := by
  induction l with
  | nil => obtain ⟨n, hn, _⟩ := h; cases hn
  | cons a rest ih =>
    cases hc : order.contains a with
    | false =>
      have hno : a ∉ order := fun hmem => by
        have ht : order.contains a = true := List.elem_iff.mpr hmem
        rw [ht] at hc
        cases hc
      simp [checkKnown, hno]
    | true =>
      have ha : a ∈ order := List.elem_iff.mp hc
      have hrest : ∃ n ∈ rest, n ∉ order := by
        obtain ⟨n, hn, hno⟩ := h
        cases hn with
        | head => exact absurd ha hno
        | tail _ hn => exact ⟨n, hn, hno⟩
      simp [checkKnown, ha, ih hrest]

/-- C3: `builds_necessary` fails with exit code 2 exactly when some requested
image name is unknown; otherwise it returns exactly the requested images —
no more, no fewer — each paired with `ghcr.io/<repository>/<name>:<tag>`, and
ordered by the fixed build order, not by the requested order. -/
theorem builds_necessary_spec (repository tag : String) (images : List String) :
    ((∃ n ∈ images, n ∉ order) → builds_necessary repository tag images = .error 2)
    ∧ ((∀ n ∈ images, n ∈ order) → ∃ l,
        builds_necessary repository tag images = .ok l
        ∧ l.map Prod.fst = order.filter (fun name => images.contains name)
        ∧ (∀ n, n ∈ l.map Prod.fst ↔ n ∈ images)
        ∧ (∀ p ∈ l, p.2 = "ghcr.io/" ++ repository ++ "/" ++ p.1 ++ ":" ++ tag)) := by
  constructor
  · intro h
    simp [builds_necessary, checkKnown_error h]
  · intro h
    refine ⟨(order.filter (fun name => images.contains name)).map
        (fun name => (name, "ghcr.io/" ++ repository ++ "/" ++ name ++ ":" ++ tag)), ?_, ?_, ?_, ?_⟩
    · simp [builds_necessary, checkKnown_ok h]
    · rw [List.map_map]
      have hid : (Prod.fst ∘ fun name : String =>
          (name, "ghcr.io/" ++ repository ++ "/" ++ name ++ ":" ++ tag)) = id := rfl
      rw [hid, List.map_id]
    · intro n
      rw [List.map_map]
      have hid : (Prod.fst ∘ fun name : String =>
          (name, "ghcr.io/" ++ repository ++ "/" ++ name ++ ":" ++ tag)) = id := rfl
      rw [hid, List.map_id]
      constructor
      · intro hn
        exact List.elem_iff.mp (List.mem_filter.mp hn).2
      · intro hn
        exact List.mem_filter.mpr ⟨h n hn, List.elem_iff.mpr hn⟩
    · intro p hp
      rw [List.mem_map] at hp
      obtain ⟨name, _, he⟩ := hp
      rw [← he]

/-- C3 witness: requesting the unknown image name `x` exits with code 2, via
the theorem, and requesting images out of order returns them in build order. -/
theorem builds_necessary_spec_witness :
    builds_necessary "r" "t" ["x"] = .error 2
    ∧ builds_necessary "nasa-fornax/fornax-images" "mytag" ["tractor", "base_image"]
      = .ok [("base_image", "ghcr.io/nasa-fornax/fornax-images/base_image:mytag"),
             ("tractor", "ghcr.io/nasa-fornax/fornax-images/tractor:mytag")] := by
  constructor
  · exact (builds_necessary_spec "r" "t" ["x"]).1 ⟨"x", by decide, by decide⟩
  · rfl

theorem captureFrom_true (ls : List String) : captureFrom true ls = ls := by
  induction ls with
  | nil => rfl
  | cons l rest ih => simp [captureFrom, ih]

theorem captureFrom_false_eq_dropWhile (ls : List String) :
    captureFrom false ls = ls.dropWhile (fun l => !hasNameTok l) := by
  induction ls with
  | nil => rfl
  | cons l rest ih =>
    cases hl : hasNameTok l with
    | true => simp [captureFrom, List.dropWhile, hl, captureFrom_true]
    | false => simp [captureFrom, List.dropWhile, hl, ih]

theorem dropWhile_eq_nil_of_all {ls : List String} (h : ∀ l ∈ ls, hasNameTok l = false) :
    ls.dropWhile (fun l => !hasNameTok l) = [] := by
  induction ls with
  | nil => rfl
  | cons l rest ih =>
    simp [List.dropWhile, h l (by simp), ih (fun x hx => h x (by simp [hx]))]

theorem lockLoop_writes {dryrun : Bool} {outputs : String → String}
    {image tagSuffix extra : String} {envs : List String} {r : LockResult}
    (h : lockLoop dryrun outputs image tagSuffix extra envs = .ok r) :
    ∀ w ∈ r.writes, ∃ cmd, cmd ∈ r.commands ∧ w.2 = processStdout (outputs cmd) := by
  induction envs generalizing r with
  | nil =>
    simp only [lockLoop] at h
    cases h
    intro w hw
    cases hw
  | cons env rest ih =>
    simp only [lockLoop] at h
    cases hd : dryrun with
    | true => rw [hd] at h; simp [runModel] at h
    | false =>
      subst hd
      simp only [runModel, Bool.false_eq_true, if_false] at h
      generalize hcmd : lockCmd extra tagSuffix (envNameFromPath image env) = c0 at h
      cases hrest : lockLoop false outputs image tagSuffix extra rest with
      | error e => rw [hrest] at h; cases h
      | ok r2 =>
        rw [hrest] at h
        cases h
        intro w hw
        rcases List.mem_cons.mp hw with he | hw2
        · exact ⟨c0, List.mem_cons_self _ _, by rw [he]⟩
        · obtain ⟨c, hc, hee⟩ := ih hrest w hw2
          exact ⟨c, List.mem_cons_of_mem _ hc, hee⟩

/-- C6: the text written to each lock file consists of exactly the lines of
the captured output from the first line containing `name:` through the last
line, in order, all earlier lines discarded; if no line contains `name:` the
written text is empty.  Stated both for the line filter itself and for every
write performed by `update_lockfiles`. -/
theorem lockfile_filter_spec :
    (∀ out : String, processStdout out
        = String.intercalate "\n" ((pySplit '\n' out).dropWhile (fun l => !hasNameTok l)))
    ∧ (∀ out : String, (∀ l ∈ pySplit '\n' out, hasNameTok l = false) →
        processStdout out = "")
    ∧ (∀ dryrun outputs image tag extra files r,
        update_lockfiles dryrun outputs image tag extra files = .ok r →
        ∀ w ∈ r.writes, ∃ cmd, cmd ∈ r.commands ∧ w.2 = processStdout (outputs cmd)) := by
  refine ⟨?_, ?_, ?_⟩
  · intro out
    unfold processStdout
    rw [captureFrom_false_eq_dropWhile]
  · intro out h
    unfold processStdout
    rw [captureFrom_false_eq_dropWhile, dropWhile_eq_nil_of_all h]
    rfl
  · intro dryrun outputs image tag extra files r h
    unfold update_lockfiles at h
    cases hc : strContains tag ":" with
    | false => rw [hc] at h; simp at h
    | true =>
      rw [hc] at h
      simp only [if_true] at h
      exact lockLoop_writes h

/-- C6 witness: an output with no `name:` line filters to the empty text, via
the theorem. -/
theorem lockfile_filter_spec_witness : processStdout "foo\nbar" = "" :=
  lockfile_filter_spec.2.1 "foo\nbar" (by decide)

theorem unlinkAll_filter {fs toDel : List String} (hnodup : fs.Nodup)
    (hsub : ∀ f ∈ toDel, f ∈ fs) (hd : toDel.Nodup) :
    unlinkAll fs toDel = some (fs.filter (fun f => !toDel.contains f)) := by
  induction toDel generalizing fs with
  | nil =>
    simp only [unlinkAll]
    congr 1
    symm
    apply List.filter_eq_self.mpr
    intro a ha
    rfl
  | cons d ds ih =>
    have hdf : d ∈ fs := hsub d (by simp)
    have hcont : fs.contains d = true := List.elem_iff.mpr hdf
    simp only [unlinkAll, unlink, hcont, if_true]
    have herase : fs.erase d = fs.filter (fun f => f != d) := hnodup.erase_eq_filter d
    rw [herase]
    have hsub2 : ∀ f ∈ ds, f ∈ fs.filter (fun f => f != d) := by
      intro f hf
      refine List.mem_filter.mpr ⟨hsub f (by simp [hf]), ?_⟩
      have hne : f ≠ d := by
        intro he
        subst he
        exact (List.nodup_cons.mp hd).1 hf
      simp [hne]
    rw [ih (hnodup.filter _) hsub2 (List.nodup_cons.mp hd).2]
    congr 1
    rw [List.filter_filter]
    apply List.filter_congr
    intro x hx
    show (!ds.contains x && (x != d)) = !((d :: ds).contains x)
    rw [List.contains_cons]
    cases hxd : x == d with
    | true => simp [bne, hxd]
    | false => simp [bne, hxd]

/-- C7: `remove_lockfiles` deletes exactly the files matching `conda-*lock.yml`
from the directory, leaves every non-matching file (such as `conda-a.yml`)
untouched, and completes without error — also when no file matches. -/
theorem remove_lockfiles_spec (files : List String) (hnodup : files.Nodup) :
    remove_lockfiles files = some (files.filter (fun f => !matchCondaLock f))
    ∧ ((∀ f ∈ files, matchCondaLock f = false) → remove_lockfiles files = some files)
    ∧ matchCondaLock "conda-a.yml" = false
    ∧ matchCondaLock "conda-notebook-lock.yml" = true := by
  have hmain : remove_lockfiles files = some (files.filter (fun f => !matchCondaLock f)) := by
    unfold remove_lockfiles
    rw [unlinkAll_filter hnodup (fun f hf => (List.mem_filter.mp hf).1) (hnodup.filter _)]
    congr 1
    apply List.filter_congr
    intro x hx
    cases hm : matchCondaLock x with
    | true =>
      have hmem : (files.filter matchCondaLock).contains x = true :=
        List.elem_iff.mpr (List.mem_filter.mpr ⟨hx, hm⟩)
      rw [hmem]
    | false =>
      have hn : x ∉ files.filter matchCondaLock := fun hmem => by
        have := (List.mem_filter.mp hmem).2
        rw [hm] at this
        cases this
      have hcf : (files.filter matchCondaLock).contains x = false := by
        cases hcc : (files.filter matchCondaLock).contains x with
        | false => rfl
        | true => exact absurd (List.elem_iff.mp hcc) hn
      rw [hcf]
  refine ⟨hmain, ?_, by decide, by decide⟩
  intro hall
  rw [hmain]
  congr 1
  apply List.filter_eq_self.mpr
  intro a ha
  rw [hall a ha]
  rfl

/-- C7 witness: the unit test's directory — two matching lock files and one
non-matching environment file — evaluated through the theorem: exactly the
lock files disappear. -/
theorem remove_lockfiles_spec_witness :
    remove_lockfiles ["conda-lock.yml", "conda-notebook-lock.yml", "conda-a.yml"]
      = some ["conda-a.yml"] := by
  rw [(remove_lockfiles_spec ["conda-lock.yml", "conda-notebook-lock.yml", "conda-a.yml"]
      (by decide)).1]
  rfl

/-- C8 (code bug): src/build.py's `update_lockfiles` builds the docker-run
command with NO space between the image tag and the export command (the
f-string continuation at lines 184-185 lacks a separating space).  For image
directory `tractor`, tag `repo:mytag`, and one environment file
`conda-base.yml`, the executed command glues the tag and `mamba` into the
single token `mytagmamba`; the claimed form `… <tag> <export-command>` — which
src/buildimages.py lines 186-190 and build.py lines 96-97 do produce — does
not hold here. -/
theorem lock_cmd_missing_space_bug :
    update_lockfiles false (fun _ => "name: base") "tractor" "repo:mytag" none ["conda-base.yml"]
      = .ok ⟨["docker run --entrypoint=\"\" --rm  mytagmamba env export -n base"],
             [("tractor/conda-base-lock.yml", "name: base")]⟩
    ∧ wsTokens "docker run --entrypoint=\"\" --rm  mytagmamba env export -n base"
        = ["docker", "run", "--entrypoint=\"\"", "--rm", "mytagmamba", "env",
           "export", "-n", "base"]
    ∧ ("mytag" : String) ∉
        wsTokens "docker run --entrypoint=\"\" --rm  mytagmamba env export -n base" := by
  refine ⟨rfl, rfl, by decide⟩

/-- C9: in dry-run mode `run` returns `None` without executing anything, and
therefore `update_lockfiles` on a directory containing at least one selected
(non-lock) environment-definition file always raises: the `AttributeError`
from dereferencing `None.stdout` when the tag is well-formed, and the earlier
`ValueError` when the tag lacks a colon.  `update_lockfiles` is only usable in
live mode. -/
theorem dryrun_update_lockfiles_error :
    (∀ (outputs : String → String) (cmd : String), runModel true outputs cmd = none)
    ∧ (∀ outputs image tag extra files, strContains tag ":" = true →
        selectEnvs image files ≠ [] →
        update_lockfiles true outputs image tag extra files = .error .attributeError)
    ∧ (∀ outputs image tag extra files, strContains tag ":" = false →
        update_lockfiles true outputs image tag extra files
          = .error (.valueError ("tag: " ++ tag ++ " is not a str the form repo:tag"))) := by
  refine ⟨fun _ _ => rfl, ?_, ?_⟩
  · intro outputs image tag extra files hc hne
    unfold update_lockfiles
    rw [hc]
    simp only [if_true]
    obtain ⟨e, es, hes⟩ := List.exists_cons_of_ne_nil hne
    rw [hes]
    simp [lockLoop, runModel]
  · intro outputs image tag extra files hc
    simp [update_lockfiles, hc]

/-- C9 witness: dry-run `update_lockfiles` on a directory with one environment
file raises the `AttributeError`, via the theorem. -/
theorem dryrun_update_lockfiles_error_witness :
    update_lockfiles true (fun _ => "") "img" "r:t" none ["conda-base.yml"]
      = .error .attributeError :=
  dryrun_update_lockfiles_error.2.1 (fun _ => "") "img" "r:t" none ["conda-base.yml"]
    (by decide) (by decide)

/-- C10: the non-lock filter of `update_lockfiles` tests the whole path
`{image}/conda-<name>.yml`, so an image directory whose own name contains the
substring `lock` (for example `sherlock`) selects no environment-definition
files at all: no command is run and no lock file is written for it. -/
theorem lock_in_path_selects_nothing (dryrun : Bool) (outputs : String → String)
    (image tag : String) (extra : Option String) (files : List String)
    (himg : strContains image "lock" = true) :
    selectEnvs image files = []
    ∧ (strContains tag ":" = true →
        update_lockfiles dryrun outputs image tag extra files = .ok ⟨[], []⟩) := by
  have hsel : selectEnvs image files = [] := by
    unfold selectEnvs
    apply List.filter_eq_nil_iff.mpr
    intro env henv
    rw [List.mem_map] at henv
    obtain ⟨fn, _, hfn⟩ := henv
    have hin : strContains env "lock" = true := by
      rw [← hfn]
      exact strContains_append_right _ _ _ (strContains_append_right _ _ _ himg)
    simp [hin]
  refine ⟨hsel, ?_⟩
  intro hc
  unfold update_lockfiles
  rw [hc]
  simp only [if_true]
  rw [hsel]
  rfl

/-- C10 witness: the directory `sherlock` with an environment file
`conda-base.yml` — nothing selected, nothing run, nothing written — via the
theorem. -/
theorem lock_in_path_selects_nothing_witness :
    selectEnvs "sherlock" ["conda-base.yml"] = []
    ∧ update_lockfiles false (fun _ => "") "sherlock" "r:t" none ["conda-base.yml"]
      = .ok ⟨[], []⟩ := by
  have h := lock_in_path_selects_nothing false (fun _ => "") "sherlock" "r:t" none
      ["conda-base.yml"] (by decide)
  exact ⟨h.1, h.2 (by decide)⟩
